import Mathlib

/-!
Shallow embedding of the side-quest-x-api core: the error classifier and
retrying request executor (`src/client.ts`), the includes merge
(`src/includes.ts`), and conversation-thread reconstruction
(`src/thread.ts`). ISO-8601 `created_at` strings are modelled by their
parsed epoch-millisecond value (an `Int`), and the JSON-parsed error body
by an explicit datatype recording the fields the classifier reads.
-/

-- ---------------------------------------------------------------------------
-- Error classifier (src/client.ts, parseTwitterError)
-- ---------------------------------------------------------------------------

/-- Error categories carried by `TwitterApiError` in src/client.ts. -/
inductive ErrorCategory
  | transient
  | permanent
  | configuration
deriving DecidableEq

/-- The `TwitterApiError` payload: message, HTTP status and category. -/
structure TwitterApiError where
  message : String
  status : Nat
  category : ErrorCategory
deriving DecidableEq

/-- One entry of the `errors` array of a parsed error body; its `message`
field may be absent. -/
structure ErrorEntry where
  message : Option String
deriving DecidableEq

/-- The fields `parseTwitterError` reads from a successfully JSON-parsed
error body: an optional `detail` string and an optional `errors` array. -/
structure ParsedErrorBody where
  detail : Option String
  errors : Option (List ErrorEntry)
deriving DecidableEq

/-- A raw error-response body: either a string on which `JSON.parse` throws,
or a parsed value together with the raw text. -/
inductive ErrorBody
  | invalid (raw : String)
  | valid (parsed : ParsedErrorBody) (raw : String)
deriving DecidableEq

/-- The fallback chain `parsed?.detail ?? parsed?.errors?.[0]?.message ?? body`
of `parseTwitterError`, with the catch branch mapping a parse failure to the
raw body. -/
def extractedDetail : ErrorBody → String
  | .invalid raw => raw
  | .valid parsed raw =>
    match parsed.detail with
    | some d => d
    | none =>
      match (parsed.errors.getD []).head? with
      | some e => e.message.getD raw
      | none => raw

/-- Translation of `parseTwitterError` (src/client.ts lines 63-99). -/
def parseTwitterError (status : Nat) (body : ErrorBody) : TwitterApiError :=
  let detail := extractedDetail body
  if status = 429 then
    ⟨"Rate limited: " ++ detail, status, .transient⟩
  else if status = 401 then
    ⟨"Auth failed: " ++ detail, status, .configuration⟩
  else if status = 403 then
    ⟨"Forbidden: " ++ detail ++ " (check API tier)", status, .configuration⟩
  else if status = 404 then
    ⟨"Not found: " ++ detail, status, .permanent⟩
  else if status ≥ 500 then
    ⟨"Server error " ++ toString status ++ ": " ++ detail, status, .transient⟩
  else
    ⟨"API error " ++ toString status ++ ": " ++ detail, status, .permanent⟩

-- ---------------------------------------------------------------------------
-- Request executor (src/client.ts, request)
-- ---------------------------------------------------------------------------

/-- The failures an attempt of `request` can throw: a timeout from
`withTimeout`, a classified `TwitterApiError`, or any other error
(identified here by its name) that the external `getErrorCategory`
function categorizes. -/
inductive RequestError
  | timeout
  | api (e : TwitterApiError)
  | generic (name : String)
deriving DecidableEq

/-- Outcome of one attempt: the parsed response value, or a thrown failure. -/
inductive AttemptOutcome (α : Type)
  | success (value : α)
  | failure (error : RequestError)
deriving DecidableEq

/-- Translation of the `shouldRetry` predicate passed to `retry`
(src/client.ts lines 162-167); `genericCategory` stands for the external
`getErrorCategory` function. -/
def shouldRetry (genericCategory : String → ErrorCategory) : RequestError → Bool
  | .timeout => true
  | .api e => decide (e.category = ErrorCategory.transient)
  | .generic n => decide (genericCategory n = ErrorCategory.transient)

/-- Modelled from the spec: the `retry` utility imported from
`@side-quest/core/utils` is not part of this repository.  Per the spec's
retry policy it makes up to a fixed budget of total attempts, retries a
failed attempt only when `shouldRetryFn` accepts its failure, stops at the
first success, and raises the last failure on exhaustion.  `attempts i` is
the environment-supplied outcome of the `i`-th attempt; `retriesLeft` is
the number of attempts still allowed after the current one.  Returns the
result together with the number of attempts actually made. -/
def retryGo (shouldRetryFn : RequestError → Bool) (attempts : Nat → AttemptOutcome α) :
    Nat → Nat → Except RequestError α × Nat
  | i, retriesLeft =>
    match attempts i with
    | .success v => (.ok v, i + 1)
    | .failure e =>
      match retriesLeft with
      | 0 => (.error e, i + 1)
      | r + 1 =>
        if shouldRetryFn e then retryGo shouldRetryFn attempts (i + 1) r
        else (.error e, i + 1)

/-- Modelled from the spec: `retry` with a budget of `maxAttempts` total
attempts, starting at attempt 0. -/
def retryRun (maxAttempts : Nat) (shouldRetryFn : RequestError → Bool)
    (attempts : Nat → AttemptOutcome α) : Except RequestError α × Nat :=
  retryGo shouldRetryFn attempts 0 (maxAttempts - 1)

/-- The retry loop of `request` (src/client.ts lines 135-169):
`maxAttempts: 3` with the `shouldRetry` predicate above. -/
def requestRun (genericCategory : String → ErrorCategory)
    (attempts : Nat → AttemptOutcome α) : Except RequestError α × Nat :=
  retryRun 3 (shouldRetry genericCategory) attempts

-- ---------------------------------------------------------------------------
-- Data model (src/types.ts)
-- ---------------------------------------------------------------------------

/-- Engagement counters of a tweet. -/
structure TweetPublicMetrics where
  retweet_count : Nat
  reply_count : Nat
  like_count : Nat
  quote_count : Nat
  bookmark_count : Option Nat
  impression_count : Option Nat
deriving DecidableEq

/-- Reference type of a referenced tweet. -/
inductive ReferencedTweetType
  | retweeted
  | quoted
  | replied_to
deriving DecidableEq

/-- A typed reference from one tweet to another. -/
structure ReferencedTweet where
  type : ReferencedTweetType
  id : String
deriving DecidableEq

/-- A tweet as returned on the wire; `created_at` is the parsed
epoch-millisecond timestamp. -/
structure Tweet where
  id : String
  text : String
  author_id : Option String
  conversation_id : Option String
  created_at : Option Int
  in_reply_to_user_id : Option String
  referenced_tweets : Option (List ReferencedTweet)
  public_metrics : Option TweetPublicMetrics
deriving DecidableEq

/-- Profile counters of a user. -/
structure UserPublicMetrics where
  followers_count : Nat
  following_count : Nat
  tweet_count : Nat
  listed_count : Nat
deriving DecidableEq

/-- A user profile. -/
structure User where
  id : String
  name : String
  username : String
  description : Option String
  created_at : Option Int
  profile_image_url : Option String
  verified : Option Bool
  public_metrics : Option UserPublicMetrics
deriving DecidableEq

/-- The side-loaded expansion objects of a response. -/
structure TwitterIncludes where
  users : Option (List User)
  tweets : Option (List Tweet)
deriving DecidableEq

/-- Single-object response envelope. -/
structure TwitterV2Response (α : Type) where
  data : α
  includes : Option TwitterIncludes
deriving DecidableEq

/-- Response metadata of a list envelope. -/
structure TwitterMeta where
  result_count : Nat
  newest_id : Option String
  oldest_id : Option String
  next_token : Option String
deriving DecidableEq

/-- List response envelope; `data` may be absent entirely. -/
structure TwitterV2ListResponse (α : Type) where
  data : Option (List α)
  includes : Option TwitterIncludes
  meta : Option TwitterMeta
deriving DecidableEq

/-- A tweet after the includes merge: the original tweet plus the resolved
author and the resolved first referenced tweet. -/
structure EnrichedTweet extends Tweet where
  author : Option User
  referenced_tweet_data : Option Tweet
deriving DecidableEq

/-- Result of thread reconstruction. -/
structure ThreadResult where
  tweets : List EnrichedTweet
  ageWarning : Option String
deriving DecidableEq

-- ---------------------------------------------------------------------------
-- Includes merge (src/includes.ts)
-- ---------------------------------------------------------------------------

/-- Lookup in a JS `Map` built from an entry list: the last entry written
for a key wins. -/
def mapGet (entries : List (String × α)) (k : String) : Option α :=
  ((entries.filter fun e => e.1 == k).getLast?).map fun e => e.2

/-- The entry list of the `userMap` built by `buildMaps`
(src/includes.ts lines 21-30). -/
def buildUserMap (includes : Option TwitterIncludes) : List (String × User) :=
  ((includes.bind fun i => i.users).getD []).map fun u => (u.id, u)

/-- The entry list of the `tweetMap` built by `buildMaps`. -/
def buildTweetMap (includes : Option TwitterIncludes) : List (String × Tweet) :=
  ((includes.bind fun i => i.tweets).getD []).map fun t => (t.id, t)

/-- Translation of `enrichTweet` (src/includes.ts lines 35-47): spread the
tweet and add the resolved author and resolved first reference. -/
def enrichTweet (tweet : Tweet) (userMap : List (String × User))
    (tweetMap : List (String × Tweet)) : EnrichedTweet :=
  { toTweet := tweet
    author :=
      match tweet.author_id with
      | some aid => mapGet userMap aid
      | none => none
    referenced_tweet_data :=
      match (tweet.referenced_tweets.getD []).head? with
      | some r => mapGet tweetMap r.id
      | none => none }

/-- Translation of `mergeSingleTweet` (src/includes.ts lines 52-57). -/
def mergeSingleTweet (response : TwitterV2Response Tweet) : EnrichedTweet :=
  enrichTweet response.data (buildUserMap response.includes)
    (buildTweetMap response.includes)

/-- Translation of `mergeTweetList` (src/includes.ts lines 62-68). -/
def mergeTweetList (response : TwitterV2ListResponse Tweet) : List EnrichedTweet :=
  match response.data with
  | none => []
  | some tweets =>
    tweets.map fun tweet =>
      enrichTweet tweet (buildUserMap response.includes)
        (buildTweetMap response.includes)

-- ---------------------------------------------------------------------------
-- Thread builder (src/thread.ts)
-- ---------------------------------------------------------------------------

/-- `SEVEN_DAYS_MS` from src/thread.ts line 38. -/
def SEVEN_DAYS_MS : Int := 7 * 24 * 60 * 60 * 1000

/-- `MAX_THREAD_TWEETS` from src/thread.ts line 39. -/
def MAX_THREAD_TWEETS : Nat := 200

/-- The age-warning text attached by `buildThread`. -/
def ageWarningText : String :=
  "Warning: Tweet is older than 7 days. Search API only returns recent replies."

/-- The sort comparator of `buildThread` (src/thread.ts lines 120-123) as a
"comes before or ties" test: the comparator returns 0 whenever either tweet
lacks a creation timestamp, else the difference of the timestamps; this is
its `≤ 0` relation. -/
def chronLE (a b : EnrichedTweet) : Bool :=
  match a.created_at, b.created_at with
  | some x, some y => decide (x ≤ y)
  | _, _ => true

/-- Stable insertion into a sorted list: `x` is placed before the first
element it compares `chronLE` to. -/
def sortInsert (x : EnrichedTweet) : List EnrichedTweet → List EnrichedTweet
  | [] => [x]
  | y :: ys => if chronLE x y then x :: y :: ys else y :: sortInsert x ys

/-- `allTweets.sort(comparator)`: ECMAScript requires `Array.prototype.sort`
to be stable, modelled here as a stable insertion sort over the
comparator's `≤ 0` relation. -/
def sortTweets (l : List EnrichedTweet) : List EnrichedTweet :=
  l.foldr sortInsert []

/-- Mutable state of the pagination loop of `buildThread`:
the accumulator `allTweets`, the `seenIds` set (as a list), and the
`fetched` counter. -/
structure LoopState where
  allTweets : List EnrichedTweet
  seenIds : List String
  fetched : Nat
deriving DecidableEq

/-- The body of the `for` loop over a page's enriched tweets
(src/thread.ts lines 106-112): push the tweet only if unseen. -/
def dedupStep (st : LoopState) (tweet : EnrichedTweet) : LoopState :=
  if tweet.id ∈ st.seenIds then st
  else ⟨st.allTweets ++ [tweet], st.seenIds ++ [tweet.id], st.fetched + 1⟩

/-- Absorb one search page into the loop state (src/thread.ts lines
104-113); when `page.data` is absent `mergeTweetList` is empty and the
state is unchanged, matching the `if (page.data)` guard. -/
def absorbPage (page : TwitterV2ListResponse Tweet) (st : LoopState) : LoopState :=
  (mergeTweetList page).foldl dedupStep st

/-- One search request issued by the thread loop or the replies operation:
its query string, `max_results` parameter, and pagination token. -/
structure SearchRequest where
  query : String
  max_results : Nat
  next_token : Option String
deriving DecidableEq

/-- The `while (fetched < cap)` pagination loop of `buildThread`
(src/thread.ts lines 88-117).  The environment supplies the successive
search pages; the loop stops early when the environment has no more pages.
Returns the final state and the list of search requests issued. -/
def threadLoop (cap : Nat) (query : String) :
    Option String → LoopState → List (TwitterV2ListResponse Tweet) →
    LoopState × List SearchRequest
  | _, st, [] => (st, [])
  | nextToken, st, page :: rest =>
    if st.fetched < cap then
      let pageSize := min 100 (cap - st.fetched)
      let req : SearchRequest :=
        { query := query, max_results := max pageSize 10, next_token := nextToken }
      let st' := absorbPage page st
      let nextToken' := page.meta.bind fun m => m.next_token
      if nextToken'.isNone || (page.data.getD []).isEmpty then
        (st', [req])
      else
        let res := threadLoop cap query nextToken' st' rest
        (res.1, req :: res.2)
    else (st, [])

/-- `conversation_id` derivation shared by `buildThread` (src/thread.ts
lines 68-69) and `getReplies` (src/client.ts line 288): the response's own
conversation id, falling back to the response's own id. -/
def conversationIdOf (response : TwitterV2Response Tweet) : String :=
  response.data.conversation_id.getD response.data.id

/-- The query string of every search request issued by `buildThread`
(src/thread.ts line 91). -/
def threadSearchQuery (rootResponse : TwitterV2Response Tweet) : String :=
  "conversation_id:" ++ conversationIdOf rootResponse

/-- Initial loop state of `buildThread` (src/thread.ts lines 83-84): the
merged root tweet in the accumulator, the requested id pre-seeded into
`seenIds`. -/
def threadInitState (rootResponse : TwitterV2Response Tweet) (tweetId : String) :
    LoopState :=
  ⟨[mergeSingleTweet rootResponse], [tweetId], 0⟩

/-- Translation of `buildThread` (src/thread.ts lines 49-126).  `now` is
the evaluation time (`Date.now()`), `rootResponse` the environment's
response to the root fetch, and `pages` the environment's successive
search pages.  Returns the thread result and the search requests issued. -/
def buildThread (now : Int) (rootResponse : TwitterV2Response Tweet)
    (pages : List (TwitterV2ListResponse Tweet)) (tweetId : String)
    (maxResults : Nat) : ThreadResult × List SearchRequest :=
  let cap := min maxResults MAX_THREAD_TWEETS
  let ageWarning : Option String :=
    match rootResponse.data.created_at with
    | some created =>
      if now - created > SEVEN_DAYS_MS then some ageWarningText else none
    | none => none
  let res := threadLoop cap (threadSearchQuery rootResponse) none
    (threadInitState rootResponse tweetId) pages
  ({ tweets := sortTweets res.1.allTweets, ageWarning := ageWarning }, res.2)

/-- The search request issued by step 2 of `getReplies` (src/client.ts
lines 287-294): scoped to the derived conversation id and in-reply-to the
target tweet, with `max_results` capped at 100. -/
def getRepliesSearch (original : TwitterV2Response Tweet) (tweetId : String)
    (maxResults : Nat) : SearchRequest :=
  { query := "conversation_id:" ++ conversationIdOf original
      ++ " in_reply_to_tweet_id:" ++ tweetId
    max_results := min maxResults 100
    next_token := none }

-- ---------------------------------------------------------------------------
-- Helper lemmas
-- ---------------------------------------------------------------------------

/-- Unfolding equation of `threadLoop` on the empty page list. -/
theorem threadLoop_nil (cap : Nat) (query : String) (nextToken : Option String)
    (st : LoopState) : threadLoop cap query nextToken st [] = (st, []) := rfl

/-- Unfolding equation of `threadLoop` when the cap is already reached. -/
theorem threadLoop_cons_stop (cap : Nat) (query : String)
    (nextToken : Option String) (st : LoopState)
    (page : TwitterV2ListResponse Tweet) (rest : List (TwitterV2ListResponse Tweet))
    (hf : ¬ st.fetched < cap) :
    threadLoop cap query nextToken st (page :: rest) = (st, []) := by
  simp [threadLoop, hf]

/-- Unfolding equation of `threadLoop` when a request is issued and a halting
condition (no cursor, or absent/empty page data) then holds. -/
theorem threadLoop_cons_halt (cap : Nat) (query : String)
    (nextToken : Option String) (st : LoopState)
    (page : TwitterV2ListResponse Tweet) (rest : List (TwitterV2ListResponse Tweet))
    (hf : st.fetched < cap)
    (hhalt : ((page.meta.bind fun m => m.next_token).isNone
      || (page.data.getD []).isEmpty) = true) :
    threadLoop cap query nextToken st (page :: rest) =
      (absorbPage page st,
        [{ query := query, max_results := max (min 100 (cap - st.fetched)) 10,
           next_token := nextToken }]) := by
  simp [threadLoop, hf, hhalt]

/-- Unfolding equation of `threadLoop` when a request is issued and the loop
continues to the next page. -/
theorem threadLoop_cons_cont (cap : Nat) (query : String)
    (nextToken : Option String) (st : LoopState)
    (page : TwitterV2ListResponse Tweet) (rest : List (TwitterV2ListResponse Tweet))
    (hf : st.fetched < cap)
    (hhalt : ((page.meta.bind fun m => m.next_token).isNone
      || (page.data.getD []).isEmpty) = false) :
    threadLoop cap query nextToken st (page :: rest) =
      ((threadLoop cap query (page.meta.bind fun m => m.next_token)
          (absorbPage page st) rest).1,
        { query := query, max_results := max (min 100 (cap - st.fetched)) 10,
          next_token := nextToken }
          :: (threadLoop cap query (page.meta.bind fun m => m.next_token)
              (absorbPage page st) rest).2) := by
  simp [threadLoop, hf, hhalt]

/-- Every request issued by the pagination loop carries the loop's query. -/
theorem threadLoop_query_eq :
    ∀ (pages : List (TwitterV2ListResponse Tweet)) (cap : Nat) (query : String)
      (nextToken : Option String) (st : LoopState),
      ∀ req ∈ (threadLoop cap query nextToken st pages).2, req.query = query := by
  intro pages
  induction pages with
  | nil => intro cap query nextToken st req h; simp [threadLoop_nil] at h
  | cons page rest ih =>
    intro cap query nextToken st req h
    by_cases hf : st.fetched < cap
    · rcases hc : ((page.meta.bind fun m => m.next_token).isNone
          || (page.data.getD []).isEmpty) with _ | _
      · rw [threadLoop_cons_cont cap query nextToken st page rest hf hc] at h
        rcases List.mem_cons.mp h with h | h
        · subst h; rfl
        · exact ih cap query _ _ req h
      · rw [threadLoop_cons_halt cap query nextToken st page rest hf hc] at h
        rcases List.mem_singleton.mp h with rfl
        rfl
    · rw [threadLoop_cons_stop cap query nextToken st page rest hf] at h
      simp at h

-- ---------------------------------------------------------------------------
-- C1: error classifier
-- ---------------------------------------------------------------------------

/-- C1: for every HTTP status and raw body, `parseTwitterError` carries the
given status; its message carries the extracted detail (the body's `detail`
field, else the first structured error's message, else the raw body — also
when JSON parsing fails); its category is `transient` exactly for 429 or
any status ≥ 500, `configuration` exactly for 401 or 403, and `permanent`
for 404 and every other status. -/
theorem error_classifier_spec (status : Nat) (body : ErrorBody) :
    (parseTwitterError status body).status = status
    ∧ (∃ p q, (parseTwitterError status body).message = p ++ extractedDetail body ++ q)
    ∧ ((parseTwitterError status body).category = ErrorCategory.transient ↔
        status = 429 ∨ 500 ≤ status)
    ∧ ((parseTwitterError status body).category = ErrorCategory.configuration ↔
        status = 401 ∨ status = 403)
    ∧ (status ≠ 429 → status ≠ 401 → status ≠ 403 → status < 500 →
        (parseTwitterError status body).category = ErrorCategory.permanent)
    ∧ (∀ raw, body = ErrorBody.invalid raw → extractedDetail body = raw)
    ∧ (∀ p raw d, body = ErrorBody.valid p raw → p.detail = some d →
        extractedDetail body = d)
    ∧ (∀ p raw e m, body = ErrorBody.valid p raw → p.detail = none →
        (p.errors.getD []).head? = some e → e.message = some m →
        extractedDetail body = m)
    ∧ (∀ p raw, body = ErrorBody.valid p raw → p.detail = none →
        ((p.errors.getD []).head? = none ∨
          ∃ e, (p.errors.getD []).head? = some e ∧ e.message = none) →
        extractedDetail body = raw) := by
  have hdet1 : ∀ raw, body = ErrorBody.invalid raw → extractedDetail body = raw := by
    rintro raw rfl; rfl
  have hdet2 : ∀ p raw d, body = ErrorBody.valid p raw → p.detail = some d →
      extractedDetail body = d := by
    rintro p raw d rfl h; simp [extractedDetail, h]
  have hdet3 : ∀ p raw e m, body = ErrorBody.valid p raw → p.detail = none →
      (p.errors.getD []).head? = some e → e.message = some m →
      extractedDetail body = m := by
    rintro p raw e m rfl h1 h2 h3; simp [extractedDetail, h1, h2, h3]
  have hdet4 : ∀ p raw, body = ErrorBody.valid p raw → p.detail = none →
      ((p.errors.getD []).head? = none ∨
        ∃ e, (p.errors.getD []).head? = some e ∧ e.message = none) →
      extractedDetail body = raw := by
    rintro p raw rfl h1 (h2 | ⟨e, he, hm⟩)
    · simp [extractedDetail, h1, h2]
    · simp [extractedDetail, h1, he, hm]
  unfold parseTwitterError
  split_ifs with h1 h2 h3 h4 h5
  · exact ⟨rfl, ⟨"Rate limited: ", "", by simp⟩,
      iff_of_true rfl (Or.inl h1),
      iff_of_false (by decide) (by omega),
      fun hc _ _ _ => absurd h1 hc,
      hdet1, hdet2, hdet3, hdet4⟩
  · exact ⟨rfl, ⟨"Auth failed: ", "", by simp⟩,
      iff_of_false (by decide) (by omega),
      iff_of_true rfl (Or.inl h2),
      fun _ hc _ _ => absurd h2 hc,
      hdet1, hdet2, hdet3, hdet4⟩
  · exact ⟨rfl, ⟨"Forbidden: ", " (check API tier)", rfl⟩,
      iff_of_false (by decide) (by omega),
      iff_of_true rfl (Or.inr h3),
      fun _ _ hc _ => absurd h3 hc,
      hdet1, hdet2, hdet3, hdet4⟩
  · exact ⟨rfl, ⟨"Not found: ", "", by simp⟩,
      iff_of_false (by decide) (by omega),
      iff_of_false (by decide) (by omega),
      fun _ _ _ _ => rfl,
      hdet1, hdet2, hdet3, hdet4⟩
  · exact ⟨rfl, ⟨"Server error " ++ toString status ++ ": ", "", by simp⟩,
      iff_of_true rfl (Or.inr h5),
      iff_of_false (by decide) (by omega),
      fun _ _ _ hlt => absurd h5 (by omega),
      hdet1, hdet2, hdet3, hdet4⟩
  · exact ⟨rfl, ⟨"API error " ++ toString status ++ ": ", "", by simp⟩,
      iff_of_false (by decide) (by omega),
      iff_of_false (by decide) (by omega),
      fun _ _ _ _ => rfl,
      hdet1, hdet2, hdet3, hdet4⟩

/-- Concrete instantiation of `error_classifier_spec` at status 418 with an
error body whose detail is absent and whose first structured error carries a
message. -/
theorem error_classifier_spec_witness :
    (418 ≠ 429 ∧ 418 ≠ 401 ∧ 418 ≠ 403 ∧ 418 < 500)
    ∧ (parseTwitterError 418
        (ErrorBody.valid ⟨none, some [⟨some "boom"⟩]⟩ "raw")).category =
        ErrorCategory.permanent :=
  ⟨by decide,
    (error_classifier_spec 418 (ErrorBody.valid ⟨none, some [⟨some "boom"⟩]⟩ "raw")).2.2.2.2.1
      (by decide) (by decide) (by decide) (by decide)⟩

-- ---------------------------------------------------------------------------
-- C8: absent data list
-- ---------------------------------------------------------------------------

/-- C8: for every list envelope whose `data` field is absent, `mergeTweetList`
returns the empty sequence whatever the includes or metadata contain, and an
empty `data` list likewise yields zero items. -/
theorem merge_absent_data_empty (includes : Option TwitterIncludes)
    (meta : Option TwitterMeta) :
    mergeTweetList ⟨none, includes, meta⟩ = []
    ∧ mergeTweetList ⟨some [], includes, meta⟩ = [] :=
  ⟨rfl, rfl⟩

-- ---------------------------------------------------------------------------
-- C10: enrichment is frame-preserving
-- ---------------------------------------------------------------------------

/-- C10: enrichment never alters or removes any field of the input item: the
underlying tweet of an Enriched Item equals the input tweet, both for
`enrichTweet` and for `mergeSingleTweet`; only the resolved author and
resolved first-reference fields are added. -/
theorem enrichment_frame (tweet : Tweet) (userMap : List (String × User))
    (tweetMap : List (String × Tweet)) (response : TwitterV2Response Tweet) :
    (enrichTweet tweet userMap tweetMap).toTweet = tweet
    ∧ (mergeSingleTweet response).toTweet = response.data :=
  ⟨rfl, rfl⟩

-- ---------------------------------------------------------------------------
-- C6: staleness advisory
-- ---------------------------------------------------------------------------

/-- C6: the thread result carries the staleness advisory if and only if the
seed's creation timestamp is more than exactly `SEVEN_DAYS_MS` before
evaluation time; a seed without a creation timestamp never produces the
advisory; and the advisory never alters the rest of the operation — the
returned tweets and the issued requests do not depend on the evaluation
time. -/
theorem thread_staleness_advisory (now : Int)
    (rootResponse : TwitterV2Response Tweet)
    (pages : List (TwitterV2ListResponse Tweet)) (tweetId : String)
    (maxResults : Nat) :
    ((buildThread now rootResponse pages tweetId maxResults).1.ageWarning.isSome
        = true ↔
      ∃ created, rootResponse.data.created_at = some created
        ∧ now - created > SEVEN_DAYS_MS)
    ∧ (rootResponse.data.created_at = none →
        (buildThread now rootResponse pages tweetId maxResults).1.ageWarning = none)
    ∧ (∀ now' : Int,
        (buildThread now' rootResponse pages tweetId maxResults).1.tweets =
          (buildThread now rootResponse pages tweetId maxResults).1.tweets
        ∧ (buildThread now' rootResponse pages tweetId maxResults).2 =
          (buildThread now rootResponse pages tweetId maxResults).2) := by
  refine ⟨?_, ?_, fun now' => ⟨rfl, rfl⟩⟩
  · rcases hcr : rootResponse.data.created_at with _ | created
    · simp [buildThread, hcr]
    · by_cases hage : now - created > SEVEN_DAYS_MS
      · simp [buildThread, hcr, hage]
      · simp [buildThread, hcr, hage]
  · intro hcr
    simp [buildThread, hcr]

/-- Concrete instantiation of `thread_staleness_advisory`: a seed without a
creation timestamp yields no advisory. -/
theorem thread_staleness_advisory_witness :
    (buildThread 0
        ⟨⟨"x", "hi", none, none, none, none, none, none⟩, none⟩ [] "x" 5).1.ageWarning
      = none :=
  (thread_staleness_advisory 0
      ⟨⟨"x", "hi", none, none, none, none, none, none⟩, none⟩ [] "x" 5).2.1 rfl

-- ---------------------------------------------------------------------------
-- C9: conversation-grouping identifier
-- ---------------------------------------------------------------------------

/-- C9: every search request issued by thread reconstruction is scoped to the
conversation-grouping identifier derived from the fetched root — its own
grouping field when present, its own identifier otherwise — and the replies
operation issues a search scoped to that grouping AND in-reply-to the exact
target item, with `max_results` capped to 100. -/
theorem grouping_identifier_fallback (now : Int)
    (rootResponse original : TwitterV2Response Tweet)
    (pages : List (TwitterV2ListResponse Tweet)) (tweetId : String)
    (maxResults repliesMax : Nat) :
    (∀ req ∈ (buildThread now rootResponse pages tweetId maxResults).2,
      req.query = "conversation_id:"
        ++ rootResponse.data.conversation_id.getD rootResponse.data.id)
    ∧ (∀ c, rootResponse.data.conversation_id = some c →
        conversationIdOf rootResponse = c)
    ∧ (rootResponse.data.conversation_id = none →
        conversationIdOf rootResponse = rootResponse.data.id)
    ∧ (getRepliesSearch original tweetId repliesMax).query =
        "conversation_id:" ++ original.data.conversation_id.getD original.data.id
          ++ " in_reply_to_tweet_id:" ++ tweetId
    ∧ (getRepliesSearch original tweetId repliesMax).max_results =
        min repliesMax 100 := by
  refine ⟨?_, ?_, ?_, rfl, rfl⟩
  · intro req hreq
    exact threadLoop_query_eq pages _ _ _ _ req hreq
  · intro c hc; simp [conversationIdOf, hc]
  · intro hc; simp [conversationIdOf, hc]

/-- Concrete instantiation of `grouping_identifier_fallback`: the single
request issued for a root with an explicit conversation id carries the
grouping-scoped query. -/
theorem grouping_identifier_fallback_witness :
    ∀ req ∈ (buildThread 0
        ⟨⟨"r", "root", none, some "conv", none, none, none, none⟩, none⟩
        [⟨some [], none, none⟩] "r" 50).2,
      req.query = "conversation_id:" ++ (some "conv").getD "r" :=
  (grouping_identifier_fallback 0
      ⟨⟨"r", "root", none, some "conv", none, none, none, none⟩, none⟩
      ⟨⟨"r", "root", none, some "conv", none, none, none, none⟩, none⟩
      [⟨some [], none, none⟩] "r" 50 50).1

-- ---------------------------------------------------------------------------
-- C2: retry policy of the request executor
-- ---------------------------------------------------------------------------

/-- C2: the executor makes between 1 and 3 total attempts; every attempt
followed by another one failed with a failure the `shouldRetry` predicate
accepts; a success result is the success of the last attempt made (so
execution halts at the first success); an error result is the failure of
the last attempt made, and is surfaced either because the budget of 3 was
exhausted or because the failure was not retryable (configuration and
permanent failures abort immediately); and `shouldRetry` accepts exactly
the transient failures: a timeout, a classified failure of category
`transient`, or a generic failure the external category function calls
transient. -/
theorem request_retry_policy {α : Type} (genericCategory : String → ErrorCategory)
    (attempts : Nat → AttemptOutcome α) :
    (1 ≤ (requestRun genericCategory attempts).2
      ∧ (requestRun genericCategory attempts).2 ≤ 3)
    ∧ (∀ i, i + 1 < (requestRun genericCategory attempts).2 →
        ∃ e, attempts i = AttemptOutcome.failure e
          ∧ shouldRetry genericCategory e = true)
    ∧ (∀ v, (requestRun genericCategory attempts).1 = Except.ok v →
        attempts ((requestRun genericCategory attempts).2 - 1) =
          AttemptOutcome.success v)
    ∧ (∀ e, (requestRun genericCategory attempts).1 = Except.error e →
        attempts ((requestRun genericCategory attempts).2 - 1) =
          AttemptOutcome.failure e
        ∧ ((requestRun genericCategory attempts).2 = 3
            ∨ shouldRetry genericCategory e = false))
    ∧ (∀ e, shouldRetry genericCategory e = true ↔
        (e = RequestError.timeout
          ∨ (∃ a, e = RequestError.api a ∧ a.category = ErrorCategory.transient)
          ∨ (∃ s, e = RequestError.generic s
              ∧ genericCategory s = ErrorCategory.transient))) := by
  have hchar : ∀ e, shouldRetry genericCategory e = true ↔
      (e = RequestError.timeout
        ∨ (∃ a, e = RequestError.api a ∧ a.category = ErrorCategory.transient)
        ∨ (∃ s, e = RequestError.generic s
            ∧ genericCategory s = ErrorCategory.transient)) := by
    intro e; cases e <;> simp [shouldRetry]
  rcases h0 : attempts 0 with v0 | e0
  · have hrun : requestRun genericCategory attempts = (Except.ok v0, 1) := by
      simp [requestRun, retryRun, retryGo, h0]
    refine ⟨by simp [hrun], ?_, ?_, ?_, hchar⟩
    · intro i hi; rw [hrun] at hi; omega
    · intro v hv; rw [hrun] at hv ⊢
      cases hv; simpa using h0
    · intro e he; rw [hrun] at he; cases he
  · by_cases hr0 : shouldRetry genericCategory e0 = true
    · rcases h1 : attempts 1 with v1 | e1
      · have hrun : requestRun genericCategory attempts = (Except.ok v1, 2) := by
          simp [requestRun, retryRun, retryGo, h0, hr0, h1]
        refine ⟨by simp [hrun], ?_, ?_, ?_, hchar⟩
        · intro i hi; rw [hrun] at hi
          have : i = 0 := by omega
          subst this; exact ⟨e0, h0, hr0⟩
        · intro v hv; rw [hrun] at hv ⊢
          cases hv; simpa using h1
        · intro e he; rw [hrun] at he; cases he
      · by_cases hr1 : shouldRetry genericCategory e1 = true
        · rcases h2 : attempts 2 with v2 | e2
          · have hrun : requestRun genericCategory attempts = (Except.ok v2, 3) := by
              simp [requestRun, retryRun, retryGo, h0, hr0, h1, hr1, h2]
            refine ⟨by simp [hrun], ?_, ?_, ?_, hchar⟩
            · intro i hi; rw [hrun] at hi
              rcases (by omega : i = 0 ∨ i = 1) with rfl | rfl
              · exact ⟨e0, h0, hr0⟩
              · exact ⟨e1, h1, hr1⟩
            · intro v hv; rw [hrun] at hv ⊢
              cases hv; simpa using h2
            · intro e he; rw [hrun] at he; cases he
          · have hrun : requestRun genericCategory attempts =
                (Except.error e2, 3) := by
              simp [requestRun, retryRun, retryGo, h0, hr0, h1, hr1, h2]
            refine ⟨by simp [hrun], ?_, ?_, ?_, hchar⟩
            · intro i hi; rw [hrun] at hi
              rcases (by omega : i = 0 ∨ i = 1) with rfl | rfl
              · exact ⟨e0, h0, hr0⟩
              · exact ⟨e1, h1, hr1⟩
            · intro v hv; rw [hrun] at hv; cases hv
            · intro e he; rw [hrun] at he ⊢
              cases he; exact ⟨by simpa using h2, Or.inl rfl⟩
        · have hrun : requestRun genericCategory attempts =
              (Except.error e1, 2) := by
            simp [requestRun, retryRun, retryGo, h0, hr0, h1, hr1]
          refine ⟨by simp [hrun], ?_, ?_, ?_, hchar⟩
          · intro i hi; rw [hrun] at hi
            have : i = 0 := by omega
            subst this; exact ⟨e0, h0, hr0⟩
          · intro v hv; rw [hrun] at hv; cases hv
          · intro e he; rw [hrun] at he ⊢
            cases he
            exact ⟨by simpa using h1, Or.inr (by simpa using hr1)⟩
    · have hrun : requestRun genericCategory attempts = (Except.error e0, 1) := by
        simp [requestRun, retryRun, retryGo, h0, hr0]
      refine ⟨by simp [hrun], ?_, ?_, ?_, hchar⟩
      · intro i hi; rw [hrun] at hi; omega
      · intro v hv; rw [hrun] at hv; cases hv
      · intro e he; rw [hrun] at he ⊢
        cases he
        exact ⟨by simpa using h0, Or.inr (by simpa using hr0)⟩

/-- Concrete instantiation of `request_retry_policy`: with a first attempt
failing on a classified transient error and a second attempt succeeding,
the attempt preceding the last one failed retryably. -/
theorem request_retry_policy_witness :
    ∃ e, (fun i => if i = 0
        then AttemptOutcome.failure
          (RequestError.api ⟨"Rate limited: x", 429, ErrorCategory.transient⟩)
        else AttemptOutcome.success 7) 0 = AttemptOutcome.failure e
      ∧ shouldRetry (fun _ => ErrorCategory.permanent) e = true :=
  (request_retry_policy (fun _ => ErrorCategory.permanent)
      (fun i => if i = 0
        then AttemptOutcome.failure
          (RequestError.api ⟨"Rate limited: x", 429, ErrorCategory.transient⟩)
        else AttemptOutcome.success 7)).2.1 0 (by decide)

-- ---------------------------------------------------------------------------
-- Sorting lemmas
-- ---------------------------------------------------------------------------

/-- Unfolding equation of `sortInsert` when the comparator places `x` first. -/
theorem sortInsert_cons_le (x y : EnrichedTweet) (ys : List EnrichedTweet)
    (h : chronLE x y = true) : sortInsert x (y :: ys) = x :: y :: ys := by
  simp [sortInsert, h]

/-- Unfolding equation of `sortInsert` when the comparator places `x` later. -/
theorem sortInsert_cons_gt (x y : EnrichedTweet) (ys : List EnrichedTweet)
    (h : chronLE x y = false) : sortInsert x (y :: ys) = y :: sortInsert x ys := by
  simp [sortInsert, h]

/-- Inserting permutes: `sortInsert x l` is `x :: l` up to reordering. -/
theorem sortInsert_perm (x : EnrichedTweet) :
    ∀ l : List EnrichedTweet, (sortInsert x l).Perm (x :: l) := by
  intro l
  induction l with
  | nil => exact List.Perm.refl _
  | cons y ys ih =>
    rcases h : chronLE x y with _ | _
    · rw [sortInsert_cons_gt x y ys h]
      exact (ih.cons y).trans (List.Perm.swap x y ys)
    · rw [sortInsert_cons_le x y ys h]

/-- The sort permutes its input. -/
theorem sortTweets_perm : ∀ l : List EnrichedTweet, (sortTweets l).Perm l := by
  intro l
  induction l with
  | nil => exact List.Perm.refl _
  | cons a l ih => exact (sortInsert_perm a (sortTweets l)).trans (ih.cons a)

-- ---------------------------------------------------------------------------
-- C4: no duplicate identifiers
-- ---------------------------------------------------------------------------

/-- Loop invariant of the accumulation: the accumulated identifiers are
pairwise distinct and all of them are recorded in `seenIds`. -/
def threadInvariant (st : LoopState) : Prop :=
  (st.allTweets.map fun t => t.id).Nodup ∧ ∀ t ∈ st.allTweets, t.id ∈ st.seenIds

/-- One dedup step preserves the invariant. -/
theorem dedupStep_invariant (st : LoopState) (tweet : EnrichedTweet)
    (h : threadInvariant st) : threadInvariant (dedupStep st tweet) := by
  rcases h with ⟨hnd, hsub⟩
  unfold dedupStep
  by_cases hc : tweet.id ∈ st.seenIds
  · rw [if_pos hc]; exact ⟨hnd, hsub⟩
  · rw [if_neg hc]
    constructor
    · rw [List.map_append]
      refine hnd.append (List.nodup_singleton _) ?_
      intro a ha hb
      rcases List.mem_map.mp ha with ⟨t, ht, hid⟩
      have hta : t.id = a := hid
      have hmem : a ∈ st.seenIds := hta ▸ hsub t ht
      rw [List.mem_singleton.mp hb] at hmem
      exact hc hmem
    · intro t ht
      rcases List.mem_append.mp ht with ht | ht
      · exact List.mem_append_left _ (hsub t ht)
      · rcases List.mem_singleton.mp ht with rfl
        exact List.mem_append_right _ (List.mem_singleton.mpr rfl)

/-- Folding dedup steps over a page preserves the invariant. -/
theorem foldl_dedup_invariant :
    ∀ (l : List EnrichedTweet) (st : LoopState),
      threadInvariant st → threadInvariant (l.foldl dedupStep st) := by
  intro l
  induction l with
  | nil => intro st h; exact h
  | cons a l ih => intro st h; exact ih _ (dedupStep_invariant st a h)

/-- Absorbing a page preserves the invariant. -/
theorem absorbPage_invariant (page : TwitterV2ListResponse Tweet)
    (st : LoopState) (h : threadInvariant st) :
    threadInvariant (absorbPage page st) :=
  foldl_dedup_invariant _ _ h

/-- The whole pagination loop preserves the invariant. -/
theorem threadLoop_invariant :
    ∀ (pages : List (TwitterV2ListResponse Tweet)) (cap : Nat) (query : String)
      (nextToken : Option String) (st : LoopState),
      threadInvariant st → threadInvariant (threadLoop cap query nextToken st pages).1 := by
  intro pages
  induction pages with
  | nil => intro cap query nextToken st h; rw [threadLoop_nil]; exact h
  | cons page rest ih =>
    intro cap query nextToken st h
    by_cases hf : st.fetched < cap
    · rcases hc : ((page.meta.bind fun m => m.next_token).isNone
          || (page.data.getD []).isEmpty) with _ | _
      · rw [threadLoop_cons_cont cap query nextToken st page rest hf hc]
        exact ih cap query _ _ (absorbPage_invariant page st h)
      · rw [threadLoop_cons_halt cap query nextToken st page rest hf hc]
        exact absorbPage_invariant page st h
    · rw [threadLoop_cons_stop cap query nextToken st page rest hf]
      exact h

/-- C4: for every seed and every page sequence, the identifiers of the
returned thread are pairwise distinct — each page item is only added when
unseen, and the seed's identifier is pre-seeded into the seen-set (the
hypothesis states that the root fetch returns the requested seed item). -/
theorem thread_no_duplicate_ids (now : Int)
    (rootResponse : TwitterV2Response Tweet)
    (pages : List (TwitterV2ListResponse Tweet)) (tweetId : String)
    (maxResults : Nat) (hroot : rootResponse.data.id = tweetId) :
    (((buildThread now rootResponse pages tweetId maxResults).1.tweets).map
      fun t => t.id).Nodup := by
  have hinit : threadInvariant (threadInitState rootResponse tweetId) := by
    constructor
    · exact List.nodup_singleton _
    · intro t ht
      rcases List.mem_singleton.mp ht with rfl
      show (mergeSingleTweet rootResponse).id ∈ [tweetId]
      have : (mergeSingleTweet rootResponse).id = tweetId := hroot
      rw [this]
      exact List.mem_singleton.mpr rfl
  have hloop := threadLoop_invariant pages (min maxResults MAX_THREAD_TWEETS)
    (threadSearchQuery rootResponse) none (threadInitState rootResponse tweetId) hinit
  have hperm : ((buildThread now rootResponse pages tweetId maxResults).1.tweets).Perm
      (threadLoop (min maxResults MAX_THREAD_TWEETS) (threadSearchQuery rootResponse)
        none (threadInitState rootResponse tweetId) pages).1.allTweets := by
    exact sortTweets_perm _
  exact (hperm.map fun t => t.id).nodup_iff.mpr hloop.1

/-- Concrete instantiation of `thread_no_duplicate_ids`: a page repeating the
seed and repeating one of its own items still yields pairwise-distinct
identifiers. -/
theorem thread_no_duplicate_ids_witness :
    (((buildThread 0 ⟨⟨"r", "root", none, none, none, none, none, none⟩, none⟩
        [⟨some [⟨"a", "x", none, none, none, none, none, none⟩,
                ⟨"a", "x", none, none, none, none, none, none⟩,
                ⟨"r", "root", none, none, none, none, none, none⟩],
          none, none⟩]
        "r" 50).1.tweets).map fun t => t.id).Nodup :=
  thread_no_duplicate_ids 0
    ⟨⟨"r", "root", none, none, none, none, none, none⟩, none⟩
    [⟨some [⟨"a", "x", none, none, none, none, none, none⟩,
            ⟨"a", "x", none, none, none, none, none, none⟩,
            ⟨"r", "root", none, none, none, none, none, none⟩],
      none, none⟩]
    "r" 50 rfl

-- ---------------------------------------------------------------------------
-- C5: pagination halting
-- ---------------------------------------------------------------------------

/-- The loop state after absorbing a given prefix of pages. -/
def stateAfterPages (st : LoopState) (pages : List (TwitterV2ListResponse Tweet)) :
    LoopState :=
  pages.foldl (fun s page => absorbPage page s) st

/-- Soundness of the request trace: whenever the loop issues its `k`-th
request (0-indexed), the accumulated count is still below the cap after the
first `k` pages, and every earlier page returned a cursor and a non-empty
data list. -/
theorem threadLoop_requests_sound :
    ∀ (pages : List (TwitterV2ListResponse Tweet)) (cap : Nat) (query : String)
      (nextToken : Option String) (st : LoopState) (k : Nat),
      k < ((threadLoop cap query nextToken st pages).2).length →
      (stateAfterPages st (pages.take k)).fetched < cap
      ∧ ∀ j, j < k → ∃ pj, pages[j]? = some pj
          ∧ (pj.meta.bind fun m => m.next_token).isSome = true
          ∧ (pj.data.getD []).isEmpty = false := by
  intro pages
  induction pages with
  | nil =>
    intro cap query nextToken st k hk
    rw [threadLoop_nil] at hk
    simp at hk
  | cons page rest ih =>
    intro cap query nextToken st k hk
    by_cases hf : st.fetched < cap
    · rcases hc : ((page.meta.bind fun m => m.next_token).isNone
          || (page.data.getD []).isEmpty) with _ | _
      · rw [threadLoop_cons_cont cap query nextToken st page rest hf hc] at hk
        have hsplit : ((page.meta.bind fun m => m.next_token).isNone = false)
            ∧ ((page.data.getD []).isEmpty = false) := by
          simpa using hc
        rcases k with _ | k'
        · refine ⟨by simpa [stateAfterPages] using hf, ?_⟩
          intro j hj; omega
        · simp only [List.length_cons, Nat.succ_lt_succ_iff] at hk
          have hrec := ih cap query (page.meta.bind fun m => m.next_token)
            (absorbPage page st) k' hk
          constructor
          · simpa [stateAfterPages] using hrec.1
          · intro j hj
            rcases j with _ | j'
            · refine ⟨page, by simp, ?_, hsplit.2⟩
              cases hopt : (page.meta.bind fun m => m.next_token) with
              | none => rw [hopt] at hsplit; simp at hsplit
              | some tk => rfl
            · rcases hrec.2 j' (by omega) with ⟨pj, hpj, hs1, hs2⟩
              exact ⟨pj, by simpa using hpj, hs1, hs2⟩
      · rw [threadLoop_cons_halt cap query nextToken st page rest hf hc] at hk
        simp only [List.length_singleton] at hk
        have hk0 : k = 0 := by omega
        subst hk0
        refine ⟨by simpa [stateAfterPages] using hf, ?_⟩
        intro j hj; omega
    · rw [threadLoop_cons_stop cap query nextToken st page rest hf] at hk
      simp at hk

/-- C5: thread pagination never issues a further search request after any
halting condition holds — whenever the `k`-th request is issued, the count
of items accumulated beyond the seed after the first `k` pages is still
below `min maxResults MAX_THREAD_TWEETS`, and every earlier page returned
a pagination cursor and a non-empty item list. -/
theorem thread_pagination_halting (now : Int)
    (rootResponse : TwitterV2Response Tweet)
    (pages : List (TwitterV2ListResponse Tweet)) (tweetId : String)
    (maxResults : Nat) (k : Nat)
    (hk : k < ((buildThread now rootResponse pages tweetId maxResults).2).length) :
    (stateAfterPages (threadInitState rootResponse tweetId) (pages.take k)).fetched
        < min maxResults MAX_THREAD_TWEETS
    ∧ ∀ j, j < k → ∃ pj, pages[j]? = some pj
        ∧ (pj.meta.bind fun m => m.next_token).isSome = true
        ∧ (pj.data.getD []).isEmpty = false := by
  have hk' : k < ((threadLoop (min maxResults MAX_THREAD_TWEETS)
      (threadSearchQuery rootResponse) none (threadInitState rootResponse tweetId)
      pages).2).length := hk
  exact threadLoop_requests_sound pages _ _ none _ k hk'

/-- Concrete instantiation of `thread_pagination_halting`: with a first page
carrying a cursor and one new item, the second request is only issued while
the cap is unreached and the first page was non-halting. -/
theorem thread_pagination_halting_witness :
    (stateAfterPages
        (threadInitState ⟨⟨"r", "root", none, none, none, none, none, none⟩, none⟩ "r")
        (([⟨some [⟨"a", "x", none, none, none, none, none, none⟩], none,
            some ⟨1, none, none, some "p2"⟩⟩,
          ⟨some [], none, none⟩] :
            List (TwitterV2ListResponse Tweet)).take 1)).fetched
      < min 50 MAX_THREAD_TWEETS
    ∧ ∀ j, j < 1 →
        ∃ pj, ([⟨some [⟨"a", "x", none, none, none, none, none, none⟩], none,
            some ⟨1, none, none, some "p2"⟩⟩,
          ⟨some [], none, none⟩] :
            List (TwitterV2ListResponse Tweet))[j]? = some pj
          ∧ (pj.meta.bind fun m => m.next_token).isSome = true
          ∧ (pj.data.getD []).isEmpty = false :=
  thread_pagination_halting 0
    ⟨⟨"r", "root", none, none, none, none, none, none⟩, none⟩
    [⟨some [⟨"a", "x", none, none, none, none, none, none⟩], none,
        some ⟨1, none, none, some "p2"⟩⟩,
      ⟨some [], none, none⟩]
    "r" 50 1 (by decide)

-- ---------------------------------------------------------------------------
-- C3: chronological ordering
-- ---------------------------------------------------------------------------

/-- A list is chronologically non-decreasing when every earlier element
compares `chronLE` to every later one (vacuously true when a timestamp is
missing, matching the comparator). -/
def chronSorted (l : List EnrichedTweet) : Prop :=
  l.Pairwise fun a b => chronLE a b = true

instance (l : List EnrichedTweet) : Decidable (chronSorted l) :=
  inferInstanceAs (Decidable (l.Pairwise fun a b => chronLE a b = true))

/-- A tweet without a timestamp ties with everything on the left. -/
theorem chronLE_none_left (a b : EnrichedTweet) (h : a.created_at = none) :
    chronLE a b = true := by
  cases hb : b.created_at <;> simp [chronLE, h, hb]

/-- A tweet without a timestamp ties with everything on the right. -/
theorem chronLE_none_right (a b : EnrichedTweet) (h : b.created_at = none) :
    chronLE a b = true := by
  cases ha : a.created_at <;> simp [chronLE, ha, h]

/-- The comparator relation is total. -/
theorem chronLE_flip (a b : EnrichedTweet) (h : chronLE a b = false) :
    chronLE b a = true := by
  rcases ha : a.created_at with _ | x <;> rcases hb : b.created_at with _ | y <;>
    simp [chronLE, ha, hb] at h ⊢
  omega

/-- The comparator relation is transitive on tweets that carry timestamps. -/
theorem chronLE_trans (a b c : EnrichedTweet)
    (ha : a.created_at.isSome = true) (hb : b.created_at.isSome = true)
    (hc : c.created_at.isSome = true)
    (h1 : chronLE a b = true) (h2 : chronLE b c = true) : chronLE a c = true := by
  obtain ⟨x, hx⟩ := Option.isSome_iff_exists.mp ha
  obtain ⟨y, hy⟩ := Option.isSome_iff_exists.mp hb
  obtain ⟨z, hz⟩ := Option.isSome_iff_exists.mp hc
  simp [chronLE, hx, hy, hz] at h1 h2 ⊢
  omega

/-- Inserting a timestamped tweet into a sorted list of timestamped tweets
keeps it sorted. -/
theorem sortInsert_sorted :
    ∀ (l : List EnrichedTweet) (x : EnrichedTweet),
      x.created_at.isSome = true → (∀ t ∈ l, t.created_at.isSome = true) →
      chronSorted l → chronSorted (sortInsert x l) := by
  intro l
  induction l with
  | nil => intro x _ _ _; exact List.pairwise_singleton _ x
  | cons y ys ih =>
    intro x hx hall hs
    rcases List.pairwise_cons.mp hs with ⟨hy, hys⟩
    rcases h : chronLE x y with _ | _
    · rw [sortInsert_cons_gt x y ys h]
      refine List.pairwise_cons.mpr
        ⟨?_, ih x hx (fun t ht => hall t (List.mem_cons_of_mem y ht)) hys⟩
      intro z hz
      have hz' : z ∈ x :: ys := ((sortInsert_perm x ys).mem_iff).mp hz
      rcases List.mem_cons.mp hz' with hz0 | hz''
      · rw [hz0]; exact chronLE_flip x y h
      · exact hy z hz''
    · rw [sortInsert_cons_le x y ys h]
      refine List.pairwise_cons.mpr ⟨?_, hs⟩
      intro z hz
      rcases List.mem_cons.mp hz with rfl | hz'
      · exact h
      · exact chronLE_trans x y z hx (hall y (List.mem_cons_self y ys))
          (hall z (List.mem_cons_of_mem y hz')) h (hy z hz')

/-- If every accumulated tweet carries a timestamp, the sort produces a
chronologically non-decreasing list. -/
theorem sortTweets_sorted :
    ∀ l : List EnrichedTweet,
      (∀ t ∈ l, t.created_at.isSome = true) → chronSorted (sortTweets l) := by
  intro l
  induction l with
  | nil => intro _; exact List.Pairwise.nil
  | cons a l ih =>
    intro hall
    have heq : sortTweets (a :: l) = sortInsert a (sortTweets l) := rfl
    rw [heq]
    refine sortInsert_sorted (sortTweets l) a
      (hall a (List.mem_cons_self a l)) ?_
      (ih fun t ht => hall t (List.mem_cons_of_mem a ht))
    intro t ht
    exact hall t (List.mem_cons_of_mem a (((sortTweets_perm l).mem_iff).mp ht))

/-- Inserting an untimestamped tweet puts it at the front: it ties with
every element. -/
theorem sortInsert_none_eq (x : EnrichedTweet) (h : x.created_at = none) :
    ∀ l, sortInsert x l = x :: l := by
  intro l
  cases l with
  | nil => rfl
  | cons y ys => exact sortInsert_cons_le x y ys (chronLE_none_left x y h)

/-- Inserting a timestamped tweet leaves the subsequence of untimestamped
tweets unchanged. -/
theorem filter_none_sortInsert (x : EnrichedTweet)
    (hx : x.created_at.isSome = true) :
    ∀ l, (sortInsert x l).filter (fun t => t.created_at.isNone) =
      l.filter (fun t => t.created_at.isNone) := by
  have hxf : x.created_at.isNone = false := by
    rcases Option.isSome_iff_exists.mp hx with ⟨v, hv⟩; simp [hv]
  intro l
  induction l with
  | nil => simp [sortInsert, List.filter_cons, hxf]
  | cons y ys ih =>
    rcases h : chronLE x y with _ | _
    · rw [sortInsert_cons_gt x y ys h]
      simp [List.filter_cons, ih]
    · rw [sortInsert_cons_le x y ys h]
      simp [List.filter_cons, hxf]

/-- The sort preserves the subsequence of untimestamped tweets: they keep
their relative insertion order among themselves. -/
theorem filter_none_sortTweets :
    ∀ l : List EnrichedTweet,
      (sortTweets l).filter (fun t => t.created_at.isNone) =
        l.filter (fun t => t.created_at.isNone) := by
  intro l
  induction l with
  | nil => rfl
  | cons a l ih =>
    have heq : sortTweets (a :: l) = sortInsert a (sortTweets l) := rfl
    rw [heq]
    rcases ha : a.created_at with _ | v
    · rw [sortInsert_none_eq a ha]
      simp [List.filter_cons, ha, ih]
    · have hx : a.created_at.isSome = true := by simp [ha]
      rw [filter_none_sortInsert a hx (sortTweets l)]
      simp [List.filter_cons, ha, ih]

/-- A list is a subsequence of the result of inserting into it. -/
theorem sublist_sortInsert (x : EnrichedTweet) :
    ∀ l : List EnrichedTweet, l.Sublist (sortInsert x l) := by
  intro l
  induction l with
  | nil => simp [sortInsert]
  | cons y ys ih =>
    rcases h : chronLE x y with _ | _
    · rw [sortInsert_cons_gt x y ys h]
      exact List.Sublist.cons₂ y ih
    · rw [sortInsert_cons_le x y ys h]
      exact List.sublist_cons_self x (y :: ys)

/-- Inserting `x` places it before every element it ties with or precedes. -/
theorem pair_sublist_sortInsert (x b : EnrichedTweet)
    (hxb : chronLE x b = true) :
    ∀ m : List EnrichedTweet, b ∈ m → ([x, b]).Sublist (sortInsert x m) := by
  intro m
  induction m with
  | nil => intro h; cases h
  | cons c cs ih =>
    intro hb
    rcases h : chronLE x c with _ | _
    · rw [sortInsert_cons_gt x c cs h]
      rcases List.mem_cons.mp hb with rfl | hb'
      · rw [hxb] at h; cases h
      · exact List.Sublist.cons c (ih hb')
    · rw [sortInsert_cons_le x c cs h]
      exact List.Sublist.cons₂ x (List.singleton_sublist.mpr hb)

/-- The sort preserves the relative order of every pair involving an
untimestamped tweet: such tweets are not moved across any other tweet. -/
theorem pair_sublist_sortTweets :
    ∀ (l : List EnrichedTweet) (a b : EnrichedTweet),
      (a.created_at = none ∨ b.created_at = none) →
      ([a, b]).Sublist l → ([a, b]).Sublist (sortTweets l) := by
  intro l
  induction l with
  | nil => intro a b _ h; cases h
  | cons x l ih =>
    intro a b hnone h
    have heq : sortTweets (x :: l) = sortInsert x (sortTweets l) := rfl
    rw [heq]
    cases h with
    | cons _ h' => exact (ih a b hnone h').trans (sublist_sortInsert x (sortTweets l))
    | cons₂ _ h' =>
      have hb : b ∈ sortTweets l :=
        ((sortTweets_perm l).mem_iff).mpr (List.singleton_sublist.mp h')
      have hxb : chronLE x b = true := by
        rcases hnone with h1 | h1
        · exact chronLE_none_left x b h1
        · exact chronLE_none_right x b h1
      exact pair_sublist_sortInsert x b hxb (sortTweets l) hb

/-- The accumulator of `buildThread` before the final sort. -/
def threadAccumulated (rootResponse : TwitterV2Response Tweet)
    (pages : List (TwitterV2ListResponse Tweet)) (tweetId : String)
    (maxResults : Nat) : List EnrichedTweet :=
  (threadLoop (min maxResults MAX_THREAD_TWEETS) (threadSearchQuery rootResponse)
    none (threadInitState rootResponse tweetId) pages).1.allTweets

/-- C3 as stated is false: a seed created at time 100 followed by a page
containing an untimestamped item and an item created at time 0 yields the
order seed, untimestamped, old — the comparator returns 0 against the
untimestamped middle item, so the timestamped items around it are never
compared and stay out of order. -/
theorem thread_chronological_order_counterexample :
    ¬ chronSorted ((buildThread 0
      ⟨⟨"r", "root", none, none, some 100, none, none, none⟩, none⟩
      [⟨some [⟨"y", "no ts", none, none, none, none, none, none⟩,
              ⟨"z", "old", none, none, some 0, none, none, none⟩], none, none⟩]
      "r" 50).1.tweets) := by decide

/-- C3 amended: the returned thread is chronologically non-decreasing
whenever every returned item carries a creation timestamp; items lacking a
timestamp keep their relative insertion order among themselves and keep
their relative order against every other item (so they are not moved to
either end) — but, as the counterexample shows, timestamped items separated
by an untimestamped one can remain out of order. -/
theorem thread_order_amended (now : Int)
    (rootResponse : TwitterV2Response Tweet)
    (pages : List (TwitterV2ListResponse Tweet)) (tweetId : String)
    (maxResults : Nat) :
    ((∀ t ∈ (buildThread now rootResponse pages tweetId maxResults).1.tweets,
        t.created_at.isSome = true) →
      chronSorted ((buildThread now rootResponse pages tweetId maxResults).1.tweets))
    ∧ ((buildThread now rootResponse pages tweetId maxResults).1.tweets.filter
        (fun t => t.created_at.isNone)) =
      ((threadAccumulated rootResponse pages tweetId maxResults).filter
        (fun t => t.created_at.isNone))
    ∧ (∀ a b : EnrichedTweet, (a.created_at = none ∨ b.created_at = none) →
        ([a, b]).Sublist (threadAccumulated rootResponse pages tweetId maxResults) →
        ([a, b]).Sublist
          ((buildThread now rootResponse pages tweetId maxResults).1.tweets)) := by
  have heq : (buildThread now rootResponse pages tweetId maxResults).1.tweets =
      sortTweets (threadAccumulated rootResponse pages tweetId maxResults) := rfl
  refine ⟨?_, ?_, ?_⟩
  · intro hall
    rw [heq] at hall ⊢
    refine sortTweets_sorted _ ?_
    intro t ht
    exact hall t (((sortTweets_perm _).mem_iff).mpr ht)
  · rw [heq]
    exact filter_none_sortTweets _
  · intro a b hnone hsub
    rw [heq]
    exact pair_sublist_sortTweets _ a b hnone hsub

/-- Concrete instantiation of `thread_order_amended`: with every item
timestamped, the returned thread is chronologically non-decreasing. -/
theorem thread_order_amended_witness :
    chronSorted ((buildThread 0
      ⟨⟨"r", "root", none, none, some 100, none, none, none⟩, none⟩
      [⟨some [⟨"z", "old", none, none, some 0, none, none, none⟩], none, none⟩]
      "r" 50).1.tweets) :=
  (thread_order_amended 0
    ⟨⟨"r", "root", none, none, some 100, none, none, none⟩, none⟩
    [⟨some [⟨"z", "old", none, none, some 0, none, none, none⟩], none, none⟩]
    "r" 50).1 (by decide)

-- ---------------------------------------------------------------------------
-- C7: includes merge idempotence and order-independence
-- ---------------------------------------------------------------------------

/-- With pairwise-distinct keys, at most one entry matches any lookup key. -/
theorem filter_key_length_le_one {α : Type} (key : α → String) :
    ∀ l : List α, ((l.map key).Nodup) →
      ∀ k, (l.filter fun x => key x == k).length ≤ 1 := by
  intro l
  induction l with
  | nil => intro _ k; simp
  | cons u l ih =>
    intro hnd k
    rw [List.map_cons] at hnd
    rcases List.nodup_cons.mp hnd with ⟨hu, hl⟩
    rcases h : (key u == k) with _ | _
    · have hstep : (u :: l).filter (fun x => key x == k)
          = l.filter (fun x => key x == k) := by
        simp [List.filter_cons, h]
      rw [hstep]
      exact ih hl k
    · have hnil : (l.filter fun x => key x == k) = [] := by
        rw [List.filter_eq_nil_iff]
        intro v hv hvk
        apply hu
        have hk : key v = k := by simpa using hvk
        have huk : key u = k := by simpa using h
        rw [huk, ← hk]
        exact List.mem_map.mpr ⟨v, hv, rfl⟩
      have hstep : (u :: l).filter (fun x => key x == k) = [u] := by
        simp [List.filter_cons, h, hnil]
      rw [hstep]
      simp

/-- Two permuted lists of length at most one are equal. -/
theorem perm_subsingleton_eq {α : Type} :
    ∀ l l' : List α, l.Perm l' → l.length ≤ 1 → l = l' := by
  intro l l' h hl
  cases l with
  | nil => exact (List.perm_nil.mp h.symm).symm
  | cons a l0 =>
    cases l0 with
    | nil => exact (List.perm_singleton.mp h.symm).symm
    | cons b l1 => simp at hl

/-- Lookup in a JS map built from a keyed list is invariant under
permutation of the list when the keys are pairwise distinct. -/
theorem mapGet_perm {α : Type} (key : α → String) (l l' : List α)
    (hperm : l'.Perm l) (hnd : (l.map key).Nodup) :
    ∀ k, mapGet (l'.map fun x => (key x, x)) k =
      mapGet (l.map fun x => (key x, x)) k := by
  intro k
  unfold mapGet
  have hfeq : ∀ m : List α,
      (m.map fun x => ((key x, x) : String × α)).filter (fun e => e.1 == k)
        = (m.filter fun x => key x == k).map fun x => (key x, x) := by
    intro m
    rw [List.filter_map]
    rfl
  rw [hfeq l', hfeq l]
  have hfilters : (l'.filter fun x => key x == k) = l.filter fun x => key x == k := by
    refine perm_subsingleton_eq _ _ (hperm.filter _) ?_
    rw [(hperm.filter fun x => key x == k).length_eq]
    exact filter_key_length_le_one key l hnd k
  rw [hfilters]

/-- Enrichment only depends on the lookup behaviour of the maps. -/
theorem enrichTweet_maps_congr (t : Tweet) (um1 um2 : List (String × User))
    (tm1 tm2 : List (String × Tweet))
    (hu : ∀ k, mapGet um1 k = mapGet um2 k)
    (ht : ∀ k, mapGet tm1 k = mapGet tm2 k) :
    enrichTweet t um1 tm1 = enrichTweet t um2 tm2 := by
  rcases ha : t.author_id with _ | aid <;>
    rcases hr : (t.referenced_tweets.getD []).head? with _ | r <;>
    simp [enrichTweet, ha, hr, hu, ht]

/-- The envelope obtained by merging a list response and feeding the merged
items back as its `data`, keeping the same includes and metadata: "merging
the same envelope twice". -/
def remerge (response : TwitterV2ListResponse Tweet) : TwitterV2ListResponse Tweet :=
  { response with data := some ((mergeTweetList response).map fun e => e.toTweet) }

/-- C7 as stated is false: when two actors share an identifier, the later
entry wins the JS-map lookup, so permuting the actor array changes the
merged result.  The two actor arrays here are permutations of each other. -/
theorem includes_merge_order_counterexample :
    (([⟨"a", "B", "ub", none, none, none, none, none⟩,
       ⟨"a", "A", "ua", none, none, none, none, none⟩] : List User).Perm
      [⟨"a", "A", "ua", none, none, none, none, none⟩,
       ⟨"a", "B", "ub", none, none, none, none, none⟩])
    ∧ mergeTweetList
        ⟨some [⟨"t1", "hi", some "a", none, none, none, none, none⟩],
          some ⟨some [⟨"a", "A", "ua", none, none, none, none, none⟩,
                      ⟨"a", "B", "ub", none, none, none, none, none⟩], none⟩, none⟩ ≠
      mergeTweetList
        ⟨some [⟨"t1", "hi", some "a", none, none, none, none, none⟩],
          some ⟨some [⟨"a", "B", "ub", none, none, none, none, none⟩,
                      ⟨"a", "A", "ua", none, none, none, none, none⟩], none⟩, none⟩ :=
  ⟨by decide, by decide⟩

/-- C7 amended: merging twice (feeding the merged items back through the
same envelope's lookup maps) yields identical Enriched Items; and the merge
is order-independent — permuting the Includes Envelope's actor and item
arrays leaves the result unchanged — provided no two actors share an
identifier and no two included items share an identifier (with duplicate
identifiers the later entry wins, so such permutations can change the
result). -/
theorem includes_merge_amended (response response' : TwitterV2ListResponse Tweet) :
    (response'.data = response.data →
      ((response'.includes.bind fun i => i.users).getD []).Perm
        ((response.includes.bind fun i => i.users).getD []) →
      ((response'.includes.bind fun i => i.tweets).getD []).Perm
        ((response.includes.bind fun i => i.tweets).getD []) →
      (((response.includes.bind fun i => i.users).getD []).map
        fun u => u.id).Nodup →
      (((response.includes.bind fun i => i.tweets).getD []).map
        fun t => t.id).Nodup →
      mergeTweetList response' = mergeTweetList response)
    ∧ mergeTweetList (remerge response) = mergeTweetList response := by
  constructor
  · intro hdata husers htweets hnu hnt
    have hu : ∀ k, mapGet (buildUserMap response'.includes) k
        = mapGet (buildUserMap response.includes) k := by
      unfold buildUserMap
      exact mapGet_perm (fun u => u.id) _ _ husers hnu
    have ht : ∀ k, mapGet (buildTweetMap response'.includes) k
        = mapGet (buildTweetMap response.includes) k := by
      unfold buildTweetMap
      exact mapGet_perm (fun t => t.id) _ _ htweets hnt
    rcases hd : response.data with _ | tweets
    · simp [mergeTweetList, hdata, hd]
    · simp only [mergeTweetList, hdata, hd]
      exact List.map_congr_left fun t _ => enrichTweet_maps_congr t _ _ _ _ hu ht
  · rcases hd : response.data with _ | tweets
    · simp [mergeTweetList, remerge, hd]
    · simp only [mergeTweetList, remerge, hd, List.map_map]
      rfl

/-- Concrete instantiation of `includes_merge_amended`: with distinct actor
identifiers, permuting the actor array leaves the merge unchanged. -/
theorem includes_merge_amended_witness :
    mergeTweetList
        ⟨some [⟨"t1", "hi", some "a", none, none, none, none, none⟩],
          some ⟨some [⟨"b", "B", "ub", none, none, none, none, none⟩,
                      ⟨"a", "A", "ua", none, none, none, none, none⟩], none⟩, none⟩ =
      mergeTweetList
        ⟨some [⟨"t1", "hi", some "a", none, none, none, none, none⟩],
          some ⟨some [⟨"a", "A", "ua", none, none, none, none, none⟩,
                      ⟨"b", "B", "ub", none, none, none, none, none⟩], none⟩, none⟩ :=
  (includes_merge_amended
    ⟨some [⟨"t1", "hi", some "a", none, none, none, none, none⟩],
      some ⟨some [⟨"a", "A", "ua", none, none, none, none, none⟩,
                  ⟨"b", "B", "ub", none, none, none, none, none⟩], none⟩, none⟩
    ⟨some [⟨"t1", "hi", some "a", none, none, none, none, none⟩],
      some ⟨some [⟨"b", "B", "ub", none, none, none, none, none⟩,
                  ⟨"a", "A", "ua", none, none, none, none, none⟩], none⟩, none⟩).1
    rfl (by decide) (by decide) (by decide) (by decide)
